import Mathlib

/-!
Verification of the agent-run dashboard server (TypeScript/tRPC/drizzle)
against its natural-language specification.

The embedding models the relational store as an explicit `Store` value holding
the three tables (`agents`, `runs`, `outputs`) as lists in insertion order,
with serial identifier counters.  Handlers become pure functions threading the
store; the progress-notifier generator `streamAgentRun` becomes a function of
the list of store snapshots it observes, one snapshot per poll iteration (per
the spec's concurrency model, §5: the only suspension point is the pause
between poll iterations, so all reads of one iteration see one snapshot).
-/

namespace Crew

/-- Run status enum (`run_status` in db/schema.ts). -/
inductive RunStatus where
  | pending
  | running
  | completed
  | failed
deriving DecidableEq, Repr

/-- Output type enum (`output_type` in db/schema.ts). -/
inductive OutputType where
  | log
  | result
  | error
deriving DecidableEq, Repr

/-- A row of `agents` (db/schema.ts).  Timestamps are modelled as integers. -/
structure Agent where
  id : Nat
  name : String
  description : Option String
  role : String
  goal : String
  backstory : String
  is_active : Bool
  created_at : Int
  updated_at : Int
deriving DecidableEq, Repr

/-- A row of `agent_runs` (db/schema.ts). -/
structure Run where
  id : Nat
  agent_id : Nat
  input_text : String
  status : RunStatus
  started_at : Option Int
  completed_at : Option Int
  created_at : Int
  updated_at : Int
deriving DecidableEq, Repr

/-- A row of `agent_outputs` (db/schema.ts). -/
structure Output where
  id : Nat
  run_id : Nat
  output_type : OutputType
  content : String
  timestamp : Int
  created_at : Int
deriving DecidableEq, Repr

/-- The relational store: the three tables in insertion order plus the serial
counters used for `id` assignment. -/
structure Store where
  agents : List Agent
  runs : List Run
  outputs : List Output
  nextRunId : Nat
  nextOutputId : Nat
deriving DecidableEq, Repr

/-- `db.select().from(agentRunsTable).where(eq(agentRunsTable.id, runId))`. -/
def selectRun (s : Store) (runId : Nat) : List Run :=
  s.runs.filter (fun r => r.id == runId)

/-- The `run.length === 0` check followed by taking `run[0]`. -/
def findRun (s : Store) (runId : Nat) : Option Run :=
  (selectRun s runId).head?

/-- `db.select().from(agentsTable).where(eq(agentsTable.id, id))` followed by
taking the first row. -/
def findAgent (s : Store) (agentId : Nat) : Option Agent :=
  (s.agents.filter (fun a => a.id == agentId)).head?

/-- `db.select().from(agentOutputsTable).where(eq(agentOutputsTable.run_id,
runId))` with no ORDER BY: rows come back in insertion order. -/
def outputsOf (s : Store) (runId : Nat) : List Output :=
  s.outputs.filter (fun o => o.run_id == runId)

/-- Stable insertion of an output into a list sorted by `key`. -/
def insertSorted {β : Type} [LinearOrder β] (key : Output → β) (o : Output) :
    List Output → List Output
  | [] => [o]
  | x :: xs => if key o ≤ key x then o :: x :: xs else x :: insertSorted key o xs

/-- Stable sort of outputs by `key`: the semantics of an SQL `ORDER BY` over a
table scanned in insertion order. -/
def sortByKey {β : Type} [LinearOrder β] (key : Output → β) :
    List Output → List Output
  | [] => []
  | x :: xs => insertSorted key x (sortByKey key xs)

/-- `orderBy(agentOutputsTable.id)`. -/
def sortById (l : List Output) : List Output :=
  sortByKey (fun o => o.id) l

/-- `orderBy(asc(agentOutputsTable.timestamp))`. -/
def sortByTimestamp (l : List Output) : List Output :=
  sortByKey (fun o => o.timestamp) l

/-- `status === 'completed' || status === 'failed'`. -/
def isTerminal : RunStatus → Bool
  | RunStatus.completed => true
  | RunStatus.failed => true
  | _ => false

/-- `outputs.filter(o => o.output_type === 'result').map(o => o.content)
.join('\n') || undefined` (stream_agent_run.ts lines 49-52 and 123-126):
the JS `||` turns an empty joined string into `undefined`. -/
def computeFinalResult (outs : List Output) : Option String :=
  let joined := String.intercalate "\n"
    ((outs.filter (fun o => o.output_type == OutputType.result)).map
      (fun o => o.content))
  if joined = "" then none else some joined

/-- One event of the `StreamOutputEvent` union (schema.ts). -/
inductive StreamEvent where
  | output (run_id : Nat) (data : Output)
  | status_update (run_id : Nat) (status : RunStatus)
  | complete (run_id : Nat) (final_result : Option String)
deriving DecidableEq, Repr

/-- What a consumer observes of the generator over the observed snapshots:
the generator either threw (after delivering `delivered`), returned after
yielding `events`, or is still polling after yielding `events`. -/
inductive StreamOutcome where
  | failed (delivered : List StreamEvent) (msg : String)
  | done (events : List StreamEvent)
  | ongoing (events : List StreamEvent)
deriving DecidableEq, Repr

/-- The per-iteration output query of the polling loop (stream_agent_run.ts
lines 60-72): condition `eq(run_id, runId)` always, plus `gt(id, lastOutputId)`
only when `lastOutputId > 0`, ordered by id. -/
def pollFetch (s : Store) (runId lastOutputId : Nat) : List Output :=
  if lastOutputId > 0 then
    sortById (s.outputs.filter
      (fun o => o.run_id == runId && decide (lastOutputId < o.id)))
  else
    sortById (outputsOf s runId)

/-- The polling loop of `streamAgentRun` (stream_agent_run.ts lines 58-138),
one list element per poll iteration's snapshot of the store.  Each iteration:
fetch undelivered outputs and yield them, advancing the cursor to the id of
the last yielded output; re-read the run (throwing if it vanished); yield a
`status_update` if the status changed; if the status is terminal, re-read all
of the run's outputs, yield `complete` with the joined result contents, and
return; otherwise sleep and repeat with the next snapshot. -/
def streamLoop (runId : Nat) : Nat → RunStatus → List Store → StreamOutcome
  | _, _, [] => StreamOutcome.ongoing []
  | lastOutputId, lastStatus, s :: rest =>
    let fetched := pollFetch s runId lastOutputId
    let outEvents := fetched.map (fun o => StreamEvent.output runId o)
    match findRun s runId with
    | none =>
        StreamOutcome.failed outEvents
          ("Agent run with ID " ++ toString runId ++ " was deleted")
    | some currentRun =>
      let newLastId := fetched.foldl (fun _ o => o.id) lastOutputId
      let statusEvents :=
        if currentRun.status == lastStatus then []
        else [StreamEvent.status_update runId currentRun.status]
      if isTerminal currentRun.status then
        StreamOutcome.done (outEvents ++ statusEvents ++
          [StreamEvent.complete runId (computeFinalResult (outputsOf s runId))])
      else
        match streamLoop runId newLastId currentRun.status rest with
        | StreamOutcome.failed evs m =>
            StreamOutcome.failed (outEvents ++ statusEvents ++ evs) m
        | StreamOutcome.done evs =>
            StreamOutcome.done (outEvents ++ statusEvents ++ evs)
        | StreamOutcome.ongoing evs =>
            StreamOutcome.ongoing (outEvents ++ statusEvents ++ evs)

/-- `streamAgentRun` (stream_agent_run.ts).  The head of `stores` is the store
at subscription time; the rest are the snapshots seen by successive poll
iterations (the first loop iteration runs before any sleep, so it sees the
subscription-time snapshot). -/
def streamAgentRun (runId : Nat) (stores : List Store) : StreamOutcome :=
  match stores with
  | [] => StreamOutcome.ongoing []
  | s0 :: _ =>
    match findRun s0 runId with
    | none =>
        StreamOutcome.failed []
          ("Agent run with ID " ++ toString runId ++ " not found")
    | some run =>
      if isTerminal run.status then
        let allOutputs := sortById (outputsOf s0 runId)
        StreamOutcome.done
          ((allOutputs.map (fun o => StreamEvent.output runId o)) ++
            [StreamEvent.complete runId (computeFinalResult allOutputs)])
      else streamLoop runId 0 run.status stores

/-- `startAgentRunInputSchema` (schema.ts). -/
structure StartAgentRunInput where
  agent_id : Nat
  input_text : String
deriving DecidableEq, Repr

/-- `startAgentRun` (start_agent_run.ts).  `now` models `new Date()` /
the database's `defaultNow()`.  The result pairs the returned value (or the
thrown error's message) with the store after the call. -/
def startAgentRun (now : Int) (input : StartAgentRunInput) (s : Store) :
    Except String Run × Store :=
  match findAgent s input.agent_id with
  | none =>
      (Except.error ("Agent with id " ++ toString input.agent_id ++ " not found"), s)
  | some agent =>
    if agent.is_active = false then
      (Except.error ("Agent with id " ++ toString input.agent_id ++ " is not active"), s)
    else
      let r : Run :=
        { id := s.nextRunId
          agent_id := input.agent_id
          input_text := input.input_text
          status := RunStatus.pending
          started_at := none
          completed_at := none
          created_at := now
          updated_at := now }
      (Except.ok r, { s with runs := s.runs ++ [r], nextRunId := s.nextRunId + 1 })

/-- `createAgentOutputInputSchema` (schema.ts): `timestamp` is optional. -/
structure CreateAgentOutputInput where
  run_id : Nat
  output_type : OutputType
  content : String
  timestamp : Option Int
deriving DecidableEq, Repr

/-- `createAgentOutput` (create_agent_output.ts).  The inserted row's
timestamp is `input.timestamp || new Date()`. -/
def createAgentOutput (now : Int) (input : CreateAgentOutputInput) (s : Store) :
    Except String Output × Store :=
  match findRun s input.run_id with
  | none =>
      (Except.error ("Agent run with ID " ++ toString input.run_id ++ " not found"), s)
  | some _ =>
    let o : Output :=
      { id := s.nextOutputId
        run_id := input.run_id
        output_type := input.output_type
        content := input.content
        timestamp := match input.timestamp with
          | some t => t
          | none => now
        created_at := now }
    (Except.ok o, { s with outputs := s.outputs ++ [o], nextOutputId := s.nextOutputId + 1 })

/-- `getAgentOutputs` (src/unnamed/part_006 lines 6-21): the run's outputs
ordered by `asc(timestamp)`. -/
def getAgentOutputs (s : Store) (runId : Nat) : List Output :=
  sortByTimestamp (outputsOf s runId)

/-- `updateAgentRunInputSchema` (schema.ts): `started_at`/`completed_at` are
`nullable().optional()`, so "absent", "explicit null" and "a value" are three
distinct inputs — modelled as `Option (Option Int)`. -/
structure UpdateAgentRunInput where
  id : Nat
  status : RunStatus
  started_at : Option (Option Int)
  completed_at : Option (Option Int)
deriving DecidableEq, Repr

/-- `updateAgentRunStatus` (src/unnamed/part_006 lines 44-93).  Returns the
null sentinel (`none`) for an unknown run id; otherwise builds the update:
status and bumped `updated_at` always; `started_at` only when the caller
supplied one (`input.started_at !== undefined`, so explicit null is used
verbatim) or when the new status is `running` and none is stored yet
(`!currentRun.started_at`); symmetrically for `completed_at` keyed on
`completed`/`failed`. -/
def updateAgentRunStatus (now : Int) (input : UpdateAgentRunInput) (s : Store) :
    Option Run × Store :=
  match findRun s input.id with
  | none => (none, s)
  | some currentRun =>
    let newStarted : Option Int :=
      match input.started_at with
      | some v => v
      | none =>
        if input.status == RunStatus.running && currentRun.started_at == none
        then some now
        else currentRun.started_at
    let newCompleted : Option Int :=
      match input.completed_at with
      | some v => v
      | none =>
        if (input.status == RunStatus.completed || input.status == RunStatus.failed)
            && currentRun.completed_at == none
        then some now
        else currentRun.completed_at
    let updated : Run :=
      { currentRun with
          status := input.status
          started_at := newStarted
          completed_at := newCompleted
          updated_at := now }
    (some updated,
      { s with runs := s.runs.map (fun r => if r.id == input.id then updated else r) })

/-- Rendering of the specification's §4.1 rule for the new `started_at`:
"if caller supplied a value (including explicit null), use it verbatim;
otherwise, if the new status is `running` and no `started_at` is currently
stored, set it to the current instant; otherwise leave unchanged." -/
def specStartedAt (supplied : Option (Option Int)) (newStatus : RunStatus)
    (stored : Option Int) (now : Int) : Option Int :=
  match supplied with
  | some v => v
  | none =>
    match newStatus, stored with
    | RunStatus.running, none => some now
    | _, _ => stored

/-- Rendering of the specification's symmetric §4.1 rule for `completed_at`,
keyed on status `completed` or `failed`. -/
def specCompletedAt (supplied : Option (Option Int)) (newStatus : RunStatus)
    (stored : Option Int) (now : Int) : Option Int :=
  match supplied with
  | some v => v
  | none =>
    match newStatus, stored with
    | RunStatus.completed, none => some now
    | RunStatus.failed, none => some now
    | _, _ => stored

/-- Rendering of claim C2's description of `final_result`: "the contents of
all result-typed outputs of the run joined with a single newline in ascending
output-id order regardless of timestamp, absent (not the empty string) when
the run has no result-typed outputs" — i.e. present whenever at least one
result-typed output exists. -/
def claimFinalResult (outs : List Output) : Option String :=
  let rs := (sortById outs).filter (fun o => o.output_type == OutputType.result)
  if rs.isEmpty then none
  else some (String.intercalate "\n" (rs.map (fun o => o.content)))

/-- The amended description of `final_result`: the newline-join of the
result-typed contents in ascending id order, absent exactly when that joined
string is empty (in particular when there are no result-typed outputs). -/
def amendedFinalResult (outs : List Output) : Option String :=
  let joined := String.intercalate "\n"
    (((sortById outs).filter (fun o => o.output_type == OutputType.result)).map
      (fun o => o.content))
  if joined = "" then none else some joined

/-- Store snapshots taken by successive poll iterations evolve only by
appending freshly inserted outputs (outputs are immutable and never deleted). -/
def storeEvolves : List Store → Prop
  | [] => True
  | [_] => True
  | a :: b :: rest => (∃ t, b.outputs = a.outputs ++ t) ∧ storeEvolves (b :: rest)

/-- The events yielded ahead of everything else by one poll iteration on
snapshot `s`: the undelivered outputs, then a `status_update` if the re-read
status differs from the last one seen. -/
def iterEvents (runId lastId : Nat) (lastStatus : RunStatus) (s : Store)
    (newStatus : RunStatus) : List StreamEvent :=
  (pollFetch s runId lastId).map (fun o => StreamEvent.output runId o) ++
    (if newStatus == lastStatus then []
     else [StreamEvent.status_update runId newStatus])

/-! ### Concrete fixtures used by witnesses and counterexamples -/

/-- An active agent with id 1. -/
def agent1 : Agent :=
  { id := 1, name := "n", description := none, role := "r", goal := "g"
    backstory := "b", is_active := true, created_at := 0, updated_at := 0 }

/-- An inactive agent with id 2. -/
def agent2 : Agent :=
  { agent1 with id := 2, is_active := false }

/-- A run of agent 1 that has completed. -/
def runDone : Run :=
  { id := 1, agent_id := 1, input_text := "t", status := RunStatus.completed
    started_at := some 1, completed_at := some 2, created_at := 0, updated_at := 2 }

/-- The same run while still running. -/
def runLive : Run :=
  { runDone with status := RunStatus.running, completed_at := none }

/-- A log output of run 1. -/
def outLog : Output :=
  { id := 1, run_id := 1, output_type := OutputType.log, content := "x"
    timestamp := 3, created_at := 3 }

def outA : Output :=
  { id := 1, run_id := 1, output_type := OutputType.result, content := "A"
    timestamp := 10, created_at := 10 }

def outB : Output :=
  { id := 2, run_id := 1, output_type := OutputType.log, content := "B"
    timestamp := 11, created_at := 11 }

def outC : Output :=
  { id := 3, run_id := 1, output_type := OutputType.result, content := "C"
    timestamp := 12, created_at := 12 }

/-- A result output with empty content. -/
def outE1 : Output :=
  { id := 1, run_id := 1, output_type := OutputType.result, content := ""
    timestamp := 5, created_at := 5 }

/-- A second result output with empty content. -/
def outE2 : Output :=
  { id := 2, run_id := 1, output_type := OutputType.result, content := ""
    timestamp := 6, created_at := 6 }

/-- Store with a completed run 1 owning one log output. -/
def stDone : Store :=
  { agents := [agent1], runs := [runDone], outputs := [outLog]
    nextRunId := 2, nextOutputId := 2 }

/-- Store with the A (result) / B (log) / C (result) outputs on completed run 1. -/
def stABC : Store :=
  { agents := [agent1], runs := [runDone], outputs := [outA, outB, outC]
    nextRunId := 2, nextOutputId := 4 }

/-- Store with a completed run 1 whose single result output has empty content. -/
def stEmptyOne : Store :=
  { agents := [agent1], runs := [runDone], outputs := [outE1]
    nextRunId := 2, nextOutputId := 2 }

/-- Store with a completed run 1 and two result outputs with empty content. -/
def stEmptyTwo : Store :=
  { agents := [agent1], runs := [runDone], outputs := [outE1, outE2]
    nextRunId := 2, nextOutputId := 3 }

/-- Snapshot with run 1 still running and no outputs. -/
def st3a : Store :=
  { agents := [agent1], runs := [runLive], outputs := []
    nextRunId := 2, nextOutputId := 1 }

/-- Later snapshot: run 1 completed and one output appended. -/
def st3b : Store :=
  { agents := [agent1], runs := [runDone], outputs := [outLog]
    nextRunId := 2, nextOutputId := 2 }

/-- Entirely empty store. -/
def stEmpty : Store :=
  { agents := [], runs := [], outputs := [], nextRunId := 1, nextOutputId := 1 }

/-- Store with run 1 running and no outputs, for status-update calls. -/
def stLive : Store :=
  { agents := [agent1], runs := [runLive], outputs := []
    nextRunId := 2, nextOutputId := 1 }

/-- Store holding the active agent 1 and the inactive agent 2. -/
def stAgents : Store :=
  { agents := [agent1, agent2], runs := [], outputs := []
    nextRunId := 1, nextOutputId := 1 }

/-- Store whose outputs have a timestamp tie (ids 1 and 2 at timestamp 5) and a
later-inserted earlier timestamp (id 3 at timestamp 4). -/
def stTie : Store :=
  { agents := [agent1], runs := [runDone]
    outputs :=
      [ { id := 1, run_id := 1, output_type := OutputType.log, content := "p"
          timestamp := 5, created_at := 5 }
      , { id := 2, run_id := 1, output_type := OutputType.log, content := "q"
          timestamp := 5, created_at := 5 }
      , { id := 3, run_id := 1, output_type := OutputType.log, content := "s"
          timestamp := 4, created_at := 6 } ]
    nextRunId := 2, nextOutputId := 4 }

/-- An output-creation input for run 1 with no supplied timestamp. -/
def inpLog : CreateAgentOutputInput :=
  { run_id := 1, output_type := OutputType.log, content := "m", timestamp := none }

/-- An output-creation input naming the non-existent run 99. -/
def inpLogBad : CreateAgentOutputInput :=
  { run_id := 99, output_type := OutputType.log, content := "m", timestamp := none }

/-! ### Lemmas about the stable sort used to model `ORDER BY` -/

theorem insertSorted_perm {β : Type} [LinearOrder β] (key : Output → β)
    (o : Output) (l : List Output) :
    (insertSorted key o l).Perm (o :: l) := by
  induction l with
  | nil => exact List.Perm.refl _
  | cons x xs ih =>
    by_cases hle : key o ≤ key x
    · simp only [insertSorted, if_pos hle]
      exact List.Perm.refl _
    · simp only [insertSorted, if_neg hle]
      exact (ih.cons x).trans (List.Perm.swap o x xs)

theorem sortByKey_perm {β : Type} [LinearOrder β] (key : Output → β)
    (l : List Output) : (sortByKey key l).Perm l := by
  induction l with
  | nil => exact List.Perm.refl _
  | cons x xs ih =>
    simp only [sortByKey]
    exact (insertSorted_perm key x (sortByKey key xs)).trans (ih.cons x)

theorem mem_insertSorted {β : Type} [LinearOrder β] (key : Output → β)
    (o a : Output) (l : List Output) :
    a ∈ insertSorted key o l ↔ a = o ∨ a ∈ l := by
  rw [(insertSorted_perm key o l).mem_iff, List.mem_cons]

theorem mem_sortByKey {β : Type} [LinearOrder β] (key : Output → β)
    (a : Output) (l : List Output) : a ∈ sortByKey key l ↔ a ∈ l :=
  (sortByKey_perm key l).mem_iff

theorem pairwise_le_insertSorted {β : Type} [LinearOrder β] (key : Output → β)
    (o : Output) (l : List Output)
    (h : l.Pairwise (fun a b => key a ≤ key b)) :
    (insertSorted key o l).Pairwise (fun a b => key a ≤ key b) := by
  induction l with
  | nil => simp [insertSorted]
  | cons x xs ih =>
    rw [List.pairwise_cons] at h
    by_cases hle : key o ≤ key x
    · simp only [insertSorted, if_pos hle]
      refine List.pairwise_cons.mpr ⟨?_, List.pairwise_cons.mpr h⟩
      intro y hy
      rcases List.mem_cons.mp hy with rfl | hyx
      · exact hle
      · exact hle.trans (h.1 y hyx)
    · simp only [insertSorted, if_neg hle]
      refine List.pairwise_cons.mpr ⟨?_, ih h.2⟩
      intro y hy
      rcases (mem_insertSorted key o y xs).mp hy with rfl | hyx
      · exact (not_le.mp hle).le
      · exact h.1 y hyx

theorem sortByKey_pairwise_le {β : Type} [LinearOrder β] (key : Output → β)
    (l : List Output) :
    (sortByKey key l).Pairwise (fun a b => key a ≤ key b) := by
  induction l with
  | nil => simp [sortByKey]
  | cons x xs ih =>
    simp only [sortByKey]
    exact pairwise_le_insertSorted key x _ ih

theorem sortByKey_eq_self {β : Type} [LinearOrder β] (key : Output → β)
    (l : List Output) (h : l.Pairwise (fun a b => key a ≤ key b)) :
    sortByKey key l = l := by
  induction l with
  | nil => rfl
  | cons x xs ih =>
    rw [List.pairwise_cons] at h
    simp only [sortByKey, ih h.2]
    cases xs with
    | nil => rfl
    | cons y ys => simp only [insertSorted, if_pos (h.1 y (List.mem_cons_self y ys))]

theorem pairwise_lex_insertSorted {β : Type} [LinearOrder β] (key : Output → β)
    (o : Output) (l : List Output)
    (h : l.Pairwise (fun a b => key a < key b ∨ (key a = key b ∧ a.id < b.id)))
    (hid : ∀ x ∈ l, o.id < x.id) :
    (insertSorted key o l).Pairwise
      (fun a b => key a < key b ∨ (key a = key b ∧ a.id < b.id)) := by
  induction l with
  | nil => simp [insertSorted]
  | cons x xs ih =>
    rw [List.pairwise_cons] at h
    by_cases hle : key o ≤ key x
    · simp only [insertSorted, if_pos hle]
      refine List.pairwise_cons.mpr ⟨?_, List.pairwise_cons.mpr h⟩
      intro y hy
      have hoy : key o ≤ key y := by
        rcases List.mem_cons.mp hy with rfl | hyx
        · exact hle
        · rcases h.1 y hyx with hlt | ⟨heq, _⟩
          · exact hle.trans hlt.le
          · exact hle.trans heq.le
      rcases lt_or_eq_of_le hoy with hlt | heq
      · exact Or.inl hlt
      · exact Or.inr ⟨heq, hid y hy⟩
    · simp only [insertSorted, if_neg hle]
      refine List.pairwise_cons.mpr
        ⟨?_, ih h.2 (fun z hz => hid z (List.mem_cons_of_mem x hz))⟩
      intro y hy
      rcases (mem_insertSorted key o y xs).mp hy with rfl | hyx
      · exact Or.inl (not_le.mp hle)
      · exact h.1 y hyx

theorem pairwise_lex_sortByKey {β : Type} [LinearOrder β] (key : Output → β)
    (l : List Output) (h : l.Pairwise (fun a b => a.id < b.id)) :
    (sortByKey key l).Pairwise
      (fun a b => key a < key b ∨ (key a = key b ∧ a.id < b.id)) := by
  induction l with
  | nil => simp [sortByKey]
  | cons x xs ih =>
    rw [List.pairwise_cons] at h
    simp only [sortByKey]
    exact pairwise_lex_insertSorted key x _ (ih h.2)
      (fun z hz => h.1 z ((mem_sortByKey key z xs).mp hz))

theorem sortById_eq_self (l : List Output)
    (h : l.Pairwise (fun a b => a.id < b.id)) : sortById l = l :=
  sortByKey_eq_self _ l (h.imp le_of_lt)

/-! ### Lemmas about store evolution and the polling loop -/

theorem storeEvolves_tail (a : Store) (l : List Store)
    (h : storeEvolves (a :: l)) : storeEvolves l := by
  cases l with
  | nil => trivial
  | cons b rest => exact h.2

theorem storeEvolves_head_rest (a : Store) (l : List Store)
    (h : storeEvolves (a :: l)) :
    ∀ b ∈ l, ∃ t, b.outputs = a.outputs ++ t := by
  induction l generalizing a with
  | nil => intro b hb; cases hb
  | cons c rest ih =>
    intro b hb
    rcases List.mem_cons.mp hb with rfl | hbr
    · exact h.1
    · rcases h.1 with ⟨t1, ht1⟩
      rcases ih c h.2 b hbr with ⟨t2, ht2⟩
      exact ⟨t1 ++ t2, by rw [ht2, ht1, List.append_assoc]⟩

theorem storeEvolves_pref_last (l : List Store) (sT : Store)
    (h : storeEvolves (l ++ [sT])) :
    ∀ a ∈ l, ∃ t, sT.outputs = a.outputs ++ t := by
  induction l with
  | nil => intro a ha; cases ha
  | cons c rest ih =>
    intro a ha
    rcases List.mem_cons.mp ha with rfl | har
    · exact storeEvolves_head_rest a (rest ++ [sT]) h sT
        (List.mem_append_right rest (List.mem_singleton_self sT))
    · exact ih (storeEvolves_tail c (rest ++ [sT]) h) a har

theorem foldl_id_concat (ys : List Output) (y : Output) (acc : Nat) :
    (ys ++ [y]).foldl (fun _ o => o.id) acc = y.id := by
  simp [List.foldl_append]

theorem mem_sortById (a : Output) (l : List Output) :
    a ∈ sortById l ↔ a ∈ l :=
  mem_sortByKey _ a l

/-- Every output of the run present in the snapshot `s` and not yet covered by
the delivery cursor is returned by the per-iteration output query. -/
theorem mem_pollFetch (s : Store) (runId lastId : Nat) (o : Output)
    (ho : o ∈ outputsOf s runId) (hgt : lastId < o.id) :
    o ∈ pollFetch s runId lastId := by
  rcases List.mem_filter.mp ho with ⟨hmem, hrid⟩
  by_cases hpos : lastId > 0
  · simp only [pollFetch, if_pos hpos]
    rw [mem_sortById]
    exact List.mem_filter.mpr ⟨hmem, by simp [hrid, hgt]⟩
  · simp only [pollFetch, if_neg hpos]
    rw [mem_sortById]
    exact ho

theorem mem_of_mem_pollFetch (s : Store) (runId lastId : Nat) (o : Output)
    (ho : o ∈ pollFetch s runId lastId) : o ∈ s.outputs := by
  by_cases hpos : lastId > 0
  · simp only [pollFetch, if_pos hpos] at ho
    rw [mem_sortById] at ho
    exact (List.mem_filter.mp ho).1
  · simp only [pollFetch, if_neg hpos] at ho
    rw [mem_sortById] at ho
    exact (List.mem_filter.mp ho).1

theorem streamLoop_cons_deleted (runId lastId : Nat) (lastStatus : RunStatus)
    (s : Store) (rest : List Store) (hr : findRun s runId = none) :
    streamLoop runId lastId lastStatus (s :: rest) =
      StreamOutcome.failed
        ((pollFetch s runId lastId).map (fun o => StreamEvent.output runId o))
        ("Agent run with ID " ++ toString runId ++ " was deleted") := by
  simp only [streamLoop, hr]

theorem streamLoop_cons_terminal (runId lastId : Nat) (lastStatus : RunStatus)
    (s : Store) (rest : List Store) (r : Run) (hr : findRun s runId = some r)
    (ht : isTerminal r.status = true) :
    streamLoop runId lastId lastStatus (s :: rest) =
      StreamOutcome.done (iterEvents runId lastId lastStatus s r.status ++
        [StreamEvent.complete runId (computeFinalResult (outputsOf s runId))]) := by
  simp only [streamLoop, hr, ht, if_true, iterEvents, List.append_assoc]

theorem streamLoop_cons_step (runId lastId : Nat) (lastStatus : RunStatus)
    (s : Store) (rest : List Store) (r : Run) (hr : findRun s runId = some r)
    (ht : isTerminal r.status = false) :
    streamLoop runId lastId lastStatus (s :: rest) =
      (match streamLoop runId
          ((pollFetch s runId lastId).foldl (fun _ o => o.id) lastId)
          r.status rest with
        | StreamOutcome.failed evs m =>
            StreamOutcome.failed (iterEvents runId lastId lastStatus s r.status ++ evs) m
        | StreamOutcome.done evs =>
            StreamOutcome.done (iterEvents runId lastId lastStatus s r.status ++ evs)
        | StreamOutcome.ongoing evs =>
            StreamOutcome.ongoing (iterEvents runId lastId lastStatus s r.status ++ evs)) := by
  simp only [streamLoop, hr, ht, Bool.false_eq_true, if_false, iterEvents,
    List.append_assoc]

theorem complete_not_mem_iterEvents (runId lastId : Nat)
    (lastStatus : RunStatus) (s : Store) (newStatus : RunStatus)
    (rid : Nat) (r : Option String) :
    StreamEvent.complete rid r ∉ iterEvents runId lastId lastStatus s newStatus := by
  intro hmem
  rcases List.mem_append.mp hmem with h1 | h2
  · rcases List.mem_map.mp h1 with ⟨o, _, heq⟩
    exact StreamEvent.noConfusion heq
  · by_cases hst : newStatus == lastStatus
    · simp [hst] at h2
    · simp [hst] at h2

/-- Any `complete` event in a finished poll loop carries the run's id and the
joined result contents computed from one of the observed snapshots. -/
theorem streamLoop_complete_payload (runId : Nat) (stores : List Store) :
    ∀ (lastId : Nat) (lastStatus : RunStatus) (evs : List StreamEvent),
    streamLoop runId lastId lastStatus stores = StreamOutcome.done evs →
    ∀ (rid : Nat) (r : Option String), StreamEvent.complete rid r ∈ evs →
    rid = runId ∧ ∃ t ∈ stores, r = computeFinalResult (outputsOf t runId) := by
  induction stores with
  | nil =>
    intro lastId lastStatus evs heq
    exact absurd heq (by simp [streamLoop])
  | cons s rest ih =>
    intro lastId lastStatus evs heq rid r hmem
    cases hfr : findRun s runId with
    | none =>
      rw [streamLoop_cons_deleted runId lastId lastStatus s rest hfr] at heq
      exact StreamOutcome.noConfusion heq
    | some run =>
      cases hterm : isTerminal run.status with
      | true =>
        rw [streamLoop_cons_terminal runId lastId lastStatus s rest run hfr hterm] at heq
        cases heq
        rcases List.mem_append.mp hmem with h1 | h2
        · exact absurd h1 (complete_not_mem_iterEvents _ _ _ _ _ _ _)
        · rcases List.mem_singleton.mp h2 with heq2
          cases heq2
          exact ⟨rfl, s, List.mem_cons_self s rest, rfl⟩
      | false =>
        rw [streamLoop_cons_step runId lastId lastStatus s rest run hfr hterm] at heq
        cases hrec : streamLoop runId
            ((pollFetch s runId lastId).foldl (fun _ o => o.id) lastId)
            run.status rest with
        | failed evs' m => rw [hrec] at heq; exact StreamOutcome.noConfusion heq
        | ongoing evs' => rw [hrec] at heq; exact StreamOutcome.noConfusion heq
        | done evs' =>
          rw [hrec] at heq
          cases heq
          rcases List.mem_append.mp hmem with h1 | h2
          · exact absurd h1 (complete_not_mem_iterEvents _ _ _ _ _ _ _)
          · obtain ⟨hrid, t, htmem, hr⟩ := ih _ _ _ hrec rid r h2
            exact ⟨hrid, t, List.mem_cons_of_mem s htmem, hr⟩

/-- The heart of claim C3: if the run is observed non-terminal in every
snapshot before the last one and terminal in the last, the loop finishes with
exactly one `complete` event, preceded by an `output` event for every output
of the run that the delivery cursor had not yet covered. -/
theorem streamLoop_reaches_terminal (runId : Nat) (ss : List Store) :
    ∀ (sT : Store) (lastId : Nat) (lastStatus : RunStatus) (rT : Run),
    storeEvolves (ss ++ [sT]) →
    sT.outputs.Pairwise (fun a b => a.id < b.id) →
    (∀ s ∈ ss, ∃ r, findRun s runId = some r ∧ isTerminal r.status = false) →
    findRun sT runId = some rT →
    isTerminal rT.status = true →
    ∃ pre fr,
      streamLoop runId lastId lastStatus (ss ++ [sT]) =
        StreamOutcome.done (pre ++ [StreamEvent.complete runId fr]) ∧
      (∀ o ∈ outputsOf sT runId, lastId < o.id → StreamEvent.output runId o ∈ pre) ∧
      (∀ (rid : Nat) (r : Option String), StreamEvent.complete rid r ∉ pre) := by
  induction ss with
  | nil =>
    intro sT lastId lastStatus rT _ _ _ hT htermT
    refine ⟨iterEvents runId lastId lastStatus sT rT.status,
      computeFinalResult (outputsOf sT runId), ?_, ?_, ?_⟩
    · exact streamLoop_cons_terminal runId lastId lastStatus sT [] rT hT htermT
    · intro o ho hgt
      exact List.mem_append_left _
        (List.mem_map.mpr ⟨o, mem_pollFetch sT runId lastId o ho hgt, rfl⟩)
    · intro rid r
      exact complete_not_mem_iterEvents _ _ _ _ _ _ _
  | cons s ss' ih =>
    intro sT lastId lastStatus rT hEvol hSort hss hT htermT
    obtain ⟨r0, hr0, hnt0⟩ := hss s (List.mem_cons_self s ss')
    have hEvol' : storeEvolves (ss' ++ [sT]) := storeEvolves_tail _ _ hEvol
    have hss' : ∀ x ∈ ss', ∃ r, findRun x runId = some r ∧ isTerminal r.status = false :=
      fun x hx => hss x (List.mem_cons_of_mem s hx)
    obtain ⟨pre', fr', heq', hmem', hnc'⟩ :=
      ih sT ((pollFetch s runId lastId).foldl (fun _ o => o.id) lastId)
        r0.status rT hEvol' hSort hss' hT htermT
    refine ⟨iterEvents runId lastId lastStatus s r0.status ++ pre', fr', ?_, ?_, ?_⟩
    · rw [List.cons_append, streamLoop_cons_step runId lastId lastStatus s
        (ss' ++ [sT]) r0 hr0 hnt0, heq', List.append_assoc]
    · intro o ho hgt
      rcases Nat.lt_or_ge ((pollFetch s runId lastId).foldl (fun _ o => o.id) lastId)
          o.id with hlt | hge
      · exact List.mem_append_right _ (hmem' o ho hlt)
      · -- the cursor already covers `o.id`, so `o` must have been fetched in
        -- this very iteration
        refine List.mem_append_left _ (List.mem_append_left _ ?_)
        rcases List.eq_nil_or_concat (pollFetch s runId lastId) with hnil | ⟨ys, y, hcat⟩
        · rw [hnil] at hge
          exact absurd hgt (by simpa using Nat.not_lt.mpr hge)
        · rw [List.concat_eq_append] at hcat
          rw [hcat, foldl_id_concat] at hge
          have hy : y ∈ pollFetch s runId lastId := by
            rw [hcat]; exact List.mem_append_right ys (List.mem_singleton_self y)
          have hys : y ∈ s.outputs := mem_of_mem_pollFetch s runId lastId y hy
          obtain ⟨t, hts⟩ := storeEvolves_pref_last (s :: ss') sT hEvol s
            (List.mem_cons_self s ss')
          have hoT : o ∈ sT.outputs := (List.mem_filter.mp ho).1
          have hpred : (o.run_id == runId) = true := (List.mem_filter.mp ho).2
          rw [hts] at hoT
          rcases List.mem_append.mp hoT with hos | hot
          · have hofs : o ∈ outputsOf s runId := List.mem_filter.mpr ⟨hos, hpred⟩
            exact List.mem_map.mpr ⟨o, mem_pollFetch s runId lastId o hofs hgt, rfl⟩
          · exfalso
            have hPW := hSort
            rw [hts] at hPW
            have hlt' := (List.pairwise_append.mp hPW).2.2 y hys o hot
            exact absurd hlt' (Nat.not_lt.mpr hge)
    · intro rid r hmemc
      rcases List.mem_append.mp hmemc with h1 | h2
      · exact complete_not_mem_iterEvents _ _ _ _ _ _ _ h1
      · exact hnc' rid r h2

theorem computeFinalResult_sortById (l : List Output) :
    computeFinalResult (sortById l) = amendedFinalResult l := rfl

theorem computeFinalResult_eq_amended (l : List Output)
    (h : l.Pairwise (fun a b => a.id < b.id)) :
    computeFinalResult l = amendedFinalResult l := by
  rw [← computeFinalResult_sortById, sortById_eq_self l h]

/-- Every `complete` event of a finished subscription carries the run's id and
the amended final-result computation over one of the observed snapshots. -/
theorem stream_complete_payload (runId : Nat) (stores : List Store)
    (hwf : ∀ t ∈ stores, t.outputs.Pairwise (fun a b => a.id < b.id))
    (evs : List StreamEvent)
    (heq : streamAgentRun runId stores = StreamOutcome.done evs)
    (rid : Nat) (r : Option String)
    (hmem : StreamEvent.complete rid r ∈ evs) :
    rid = runId ∧ ∃ t ∈ stores, r = amendedFinalResult (outputsOf t runId) := by
  cases stores with
  | nil => exact absurd heq (by simp [streamAgentRun])
  | cons s0 rest =>
    cases hfr : findRun s0 runId with
    | none =>
      simp only [streamAgentRun, hfr] at heq
      exact StreamOutcome.noConfusion heq
    | some run =>
      cases hterm : isTerminal run.status with
      | true =>
        simp only [streamAgentRun, hfr, hterm, if_true] at heq
        cases heq
        rcases List.mem_append.mp hmem with h1 | h2
        · rcases List.mem_map.mp h1 with ⟨o, _, heq2⟩
          exact StreamEvent.noConfusion heq2
        · have heq2 := List.mem_singleton.mp h2
          cases heq2
          exact ⟨rfl, s0, List.mem_cons_self s0 rest,
            (computeFinalResult_sortById _).symm⟩
      | false =>
        simp only [streamAgentRun, hfr, hterm, Bool.false_eq_true, if_false] at heq
        obtain ⟨hrid, t, ht, hr⟩ :=
          streamLoop_complete_payload runId (s0 :: rest) 0 run.status evs heq rid r hmem
        exact ⟨hrid, t, ht,
          hr.trans (computeFinalResult_eq_amended _ ((hwf t ht).filter _))⟩

/-! ### The claims -/

/-- Claim C1: for a run whose status is already terminal (completed or failed)
at subscription time, the event sequence of `streamAgentRun` is exactly one
`output` event per existing output of the run in ascending id order, followed
by exactly one `complete` event, and the sequence then ends no matter how many
further snapshots the consumer's pulling would observe. -/
theorem claim_C1 (runId : Nat) (s : Store) (r : Run) (rest : List Store)
    (hfind : findRun s runId = some r) (hterm : isTerminal r.status = true) :
    ∃ outs : List Output,
      streamAgentRun runId (s :: rest) =
        StreamOutcome.done (outs.map (fun o => StreamEvent.output runId o) ++
          [StreamEvent.complete runId (computeFinalResult outs)]) ∧
      outs.Perm (outputsOf s runId) ∧
      outs.Pairwise (fun a b => a.id ≤ b.id) := by
  refine ⟨sortById (outputsOf s runId), ?_, sortByKey_perm _ _,
    sortByKey_pairwise_le _ _⟩
  simp only [streamAgentRun, hfind, hterm, if_true]

/-- Witness for C1 at the concrete store `stDone`. -/
theorem claim_C1_witness :
    ∃ outs : List Output,
      streamAgentRun 1 [stDone] =
        StreamOutcome.done (outs.map (fun o => StreamEvent.output 1 o) ++
          [StreamEvent.complete 1 (computeFinalResult outs)]) ∧
      outs.Perm (outputsOf stDone 1) ∧
      outs.Pairwise (fun a b => a.id ≤ b.id) :=
  claim_C1 1 stDone runDone [] rfl rfl

/-- Claim C4: for a run id with no matching run at subscription time, the very
first pull fails with the NotFound message and zero events were delivered. -/
theorem claim_C4 (runId : Nat) (s0 : Store) (rest : List Store)
    (habs : findRun s0 runId = none) :
    streamAgentRun runId (s0 :: rest) =
      StreamOutcome.failed []
        ("Agent run with ID " ++ toString runId ++ " not found") := by
  simp only [streamAgentRun, habs]

/-- Witness for C4 on the empty store. -/
theorem claim_C4_witness :
    streamAgentRun 7 [stEmpty] =
      StreamOutcome.failed [] ("Agent run with ID " ++ toString 7 ++ " not found") :=
  claim_C4 7 stEmpty [] rfl

/-- Claim C8: `getAgentOutputs` returns the run's outputs (a permutation of
the stored rows for that run) in non-decreasing timestamp order, ties between
equal timestamps broken by ascending id (insertion) order. -/
theorem claim_C8 (s : Store) (runId : Nat)
    (hwf : s.outputs.Pairwise (fun a b => a.id < b.id)) :
    (getAgentOutputs s runId).Perm (outputsOf s runId) ∧
    (getAgentOutputs s runId).Pairwise
      (fun a b => a.timestamp ≤ b.timestamp) ∧
    (getAgentOutputs s runId).Pairwise
      (fun a b => a.timestamp < b.timestamp ∨
        (a.timestamp = b.timestamp ∧ a.id < b.id)) := by
  refine ⟨sortByKey_perm _ _, sortByKey_pairwise_le _ _, ?_⟩
  exact pairwise_lex_sortByKey _ _ (hwf.filter _)

/-- Witness for C8 on a store with a timestamp tie. -/
theorem claim_C8_witness :
    (getAgentOutputs stTie 1).Perm (outputsOf stTie 1) ∧
    (getAgentOutputs stTie 1).Pairwise
      (fun a b => a.timestamp ≤ b.timestamp) ∧
    (getAgentOutputs stTie 1).Pairwise
      (fun a b => a.timestamp < b.timestamp ∨
        (a.timestamp = b.timestamp ∧ a.id < b.id)) :=
  claim_C8 stTie 1 (by decide)

/-- Counterexample to claim C2 as stated: on a completed run whose only
result-typed output has empty content, the emitted `complete` event carries an
absent `final_result`, while the claim's computation (present whenever at
least one result-typed output exists) yields the present empty string. -/
theorem claim_C2_counterexample :
    streamAgentRun 1 [stEmptyOne] =
      StreamOutcome.done [StreamEvent.output 1 outE1,
        StreamEvent.complete 1 none] ∧
    claimFinalResult (outputsOf stEmptyOne 1) = some "" ∧
    (none : Option String) ≠ some "" :=
  ⟨rfl, rfl, fun h => Option.noConfusion h⟩

/-- Claim C2 as amended: every `complete` event's `final_result` is the
newline-join of the result-typed contents in ascending output-id order
regardless of timestamp, except that an empty joined string (in particular,
no result-typed outputs at all) is emitted as absent; and on the concrete
completed run with outputs "A" (result, id 1), "B" (log, id 2), "C" (result,
id 3) the final result is "A\nC". -/
theorem claim_C2_amended :
    (∀ (runId : Nat) (stores : List Store),
      (∀ t ∈ stores, t.outputs.Pairwise (fun a b => a.id < b.id)) →
      ∀ (evs : List StreamEvent),
      streamAgentRun runId stores = StreamOutcome.done evs →
      ∀ (rid : Nat) (r : Option String), StreamEvent.complete rid r ∈ evs →
      rid = runId ∧ ∃ t ∈ stores, r = amendedFinalResult (outputsOf t runId)) ∧
    streamAgentRun 1 [stABC] =
      StreamOutcome.done [StreamEvent.output 1 outA, StreamEvent.output 1 outB,
        StreamEvent.output 1 outC, StreamEvent.complete 1 (some "A\nC")] :=
  ⟨fun runId stores hwf evs heq rid r hmem =>
    stream_complete_payload runId stores hwf evs heq rid r hmem, rfl⟩

/-- Witness for the amended C2, instantiating its universal part on the
concrete store `stABC` and its `complete` event. -/
theorem claim_C2_amended_witness :
    1 = 1 ∧ ∃ t ∈ [stABC],
      some "A\nC" = amendedFinalResult (outputsOf t 1) :=
  claim_C2_amended.1 1 [stABC] (by decide)
    [StreamEvent.output 1 outA, StreamEvent.output 1 outB,
      StreamEvent.output 1 outC, StreamEvent.complete 1 (some "A\nC")]
    claim_C2_amended.2 1 (some "A\nC") (by decide)

/-- Claim C3: over a schedule of snapshots in which the run exists throughout,
is non-terminal in every snapshot before the last, and terminal in the last,
with outputs only ever appended with fresh ascending positive ids, the
subscription finishes with a single `complete` event preceded by an `output`
event for every output of the run. -/
theorem claim_C3 (runId : Nat) (ss : List Store) (sT : Store) (rT : Run)
    (hEvol : storeEvolves (ss ++ [sT]))
    (hSort : sT.outputs.Pairwise (fun a b => a.id < b.id))
    (hPos : ∀ o ∈ sT.outputs, 0 < o.id)
    (hss : ∀ s ∈ ss, ∃ r, findRun s runId = some r ∧ isTerminal r.status = false)
    (hT : findRun sT runId = some rT)
    (htermT : isTerminal rT.status = true) :
    ∃ pre fr,
      streamAgentRun runId (ss ++ [sT]) =
        StreamOutcome.done (pre ++ [StreamEvent.complete runId fr]) ∧
      (∀ o ∈ outputsOf sT runId, StreamEvent.output runId o ∈ pre) ∧
      (∀ (rid : Nat) (r : Option String), StreamEvent.complete rid r ∉ pre) := by
  cases ss with
  | nil =>
    simp only [List.nil_append]
    refine ⟨(sortById (outputsOf sT runId)).map (fun o => StreamEvent.output runId o),
      computeFinalResult (sortById (outputsOf sT runId)), ?_, ?_, ?_⟩
    · simp only [streamAgentRun, hT, htermT, if_true]
    · intro o ho
      exact List.mem_map.mpr ⟨o, (mem_sortById o _).mpr ho, rfl⟩
    · intro rid r hmem
      rcases List.mem_map.mp hmem with ⟨o, _, heq⟩
      exact StreamEvent.noConfusion heq
  | cons s0 ss' =>
    obtain ⟨r0, hr0, hnt0⟩ := hss s0 (List.mem_cons_self s0 ss')
    obtain ⟨pre, fr, heq, hmem, hnc⟩ :=
      streamLoop_reaches_terminal runId (s0 :: ss') sT 0 r0.status rT
        hEvol hSort hss hT htermT
    refine ⟨pre, fr, ?_, ?_, hnc⟩
    · rw [List.cons_append] at heq ⊢
      simp only [streamAgentRun, hr0, hnt0, Bool.false_eq_true, if_false]
      exact heq
    · intro o ho
      exact hmem o ho (hPos o (List.mem_filter.mp ho).1)

/-- Witness for C3 on the two-snapshot schedule `[st3a, st3b]`. -/
theorem claim_C3_witness :
    ∃ pre fr,
      streamAgentRun 1 ([st3a] ++ [st3b]) =
        StreamOutcome.done (pre ++ [StreamEvent.complete 1 fr]) ∧
      (∀ o ∈ outputsOf st3b 1, StreamEvent.output 1 o ∈ pre) ∧
      (∀ (rid : Nat) (r : Option String), StreamEvent.complete rid r ∉ pre) :=
  claim_C3 1 [st3a] st3b runDone ⟨⟨[outLog], rfl⟩, trivial⟩ (by decide) (by decide)
    (by
      intro s hs
      rw [List.mem_singleton] at hs
      subst hs
      exact ⟨runLive, rfl, rfl⟩)
    rfl rfl

/-- Counterexample to claim C9 as stated: a completed run with two result
outputs, both with empty content, joins to "\n", which is truthy, so the
emitted `complete` event carries the present string "\n" rather than an
absent `final_result`. -/
theorem claim_C9_counterexample :
    (∀ o ∈ outputsOf stEmptyTwo 1,
      o.output_type = OutputType.result ∧ o.content = "") ∧
    findRun stEmptyTwo 1 = some runDone ∧
    isTerminal runDone.status = true ∧
    streamAgentRun 1 [stEmptyTwo] =
      StreamOutcome.done [StreamEvent.output 1 outE1, StreamEvent.output 1 outE2,
        StreamEvent.complete 1 (some "\n")] :=
  ⟨by decide, rfl, rfl, rfl⟩

/-- Claim C9 as amended: whenever `streamAgentRun` emits a `complete` event —
whether from the already-terminal branch or from the polling loop — for a run
whose result-typed outputs join to the empty string (for instance, exactly one
result output with empty content), the event carries an absent `final_result`
rather than the empty string, because the implementation maps any empty joined
string to undefined. -/
theorem claim_C9_amended (runId : Nat) (stores : List Store)
    (hwf : ∀ t ∈ stores, t.outputs.Pairwise (fun a b => a.id < b.id))
    (hjoin : ∀ t ∈ stores, String.intercalate "\n"
      (((outputsOf t runId).filter
        (fun o => o.output_type == OutputType.result)).map
        (fun o => o.content)) = "")
    (evs : List StreamEvent)
    (heq : streamAgentRun runId stores = StreamOutcome.done evs)
    (rid : Nat) (r : Option String)
    (hmem : StreamEvent.complete rid r ∈ evs) :
    r = none := by
  obtain ⟨-, t, ht, hr⟩ := stream_complete_payload runId stores hwf evs heq rid r hmem
  have hsort : sortById (outputsOf t runId) = outputsOf t runId :=
    sortById_eq_self _ ((hwf t ht).filter _)
  rw [hr]
  simp [amendedFinalResult, hsort, hjoin t ht]

/-- Witness for the amended C9 on the store with one empty result output:
the subscription's single `complete` event carries an absent result. -/
theorem claim_C9_amended_witness :
    streamAgentRun 1 [stEmptyOne] =
      StreamOutcome.done [StreamEvent.output 1 outE1,
        StreamEvent.complete 1 none] ∧
    (none : Option String) = none :=
  ⟨rfl,
    claim_C9_amended 1 [stEmptyOne] (by decide) (by decide)
      [StreamEvent.output 1 outE1, StreamEvent.complete 1 none]
      rfl 1 none (by decide)⟩

/-- Claim C5: for an existing run, `updateAgentRunStatus` computes the new
`started_at` by the spec's rule (caller-supplied value — including explicit
null — verbatim; else auto-set to now exactly when the new status is running
and none is stored; else unchanged) and symmetrically `completed_at` keyed on
completed/failed; for a non-existent run id it returns the null sentinel and
leaves the store unchanged. -/
theorem claim_C5 :
    (∀ (now : Int) (input : UpdateAgentRunInput) (s : Store) (cur : Run),
      findRun s input.id = some cur →
      (updateAgentRunStatus now input s).1 =
        some { cur with
          status := input.status
          started_at := specStartedAt input.started_at input.status cur.started_at now
          completed_at :=
            specCompletedAt input.completed_at input.status cur.completed_at now
          updated_at := now }) ∧
    (∀ (now : Int) (input : UpdateAgentRunInput) (s : Store),
      findRun s input.id = none →
      updateAgentRunStatus now input s = (none, s)) := by
  constructor
  · intro now input s cur hfind
    simp only [updateAgentRunStatus, hfind]
    cases hsup : input.started_at <;> cases hcom : input.completed_at <;>
      cases hst : input.status <;> cases hsa : cur.started_at <;>
        cases hca : cur.completed_at <;>
          simp [specStartedAt, specCompletedAt, hsup, hcom, hst, hsa, hca]
  · intro now input s hfind
    simp only [updateAgentRunStatus, hfind]

/-- Witness for C5: an automatic completion on `stLive` preserves the stored
`started_at` and auto-sets `completed_at`; an unknown id returns the sentinel. -/
theorem claim_C5_witness :
    (updateAgentRunStatus 9
        { id := 1, status := RunStatus.completed,
          started_at := none, completed_at := none } stLive).1 =
      some { runLive with
        status := RunStatus.completed
        started_at := specStartedAt none RunStatus.completed runLive.started_at 9
        completed_at := specCompletedAt none RunStatus.completed runLive.completed_at 9
        updated_at := 9 } ∧
    updateAgentRunStatus 9
        { id := 99, status := RunStatus.running,
          started_at := none, completed_at := none } stLive = (none, stLive) :=
  ⟨claim_C5.1 9 _ stLive runLive rfl, claim_C5.2 9 _ stLive rfl⟩

/-- Claim C6: `startAgentRun` fails NotFound for an unknown agent id, fails
PreconditionFailed for an inactive agent, and otherwise inserts exactly one
new run with status pending and null started/completed timestamps. -/
theorem claim_C6 :
    (∀ (now : Int) (input : StartAgentRunInput) (s : Store),
      findAgent s input.agent_id = none →
      startAgentRun now input s =
        (Except.error ("Agent with id " ++ toString input.agent_id ++ " not found"), s)) ∧
    (∀ (now : Int) (input : StartAgentRunInput) (s : Store) (a : Agent),
      findAgent s input.agent_id = some a → a.is_active = false →
      startAgentRun now input s =
        (Except.error ("Agent with id " ++ toString input.agent_id ++ " is not active"), s)) ∧
    (∀ (now : Int) (input : StartAgentRunInput) (s : Store) (a : Agent),
      findAgent s input.agent_id = some a → a.is_active = true →
      ∃ r, startAgentRun now input s =
          (Except.ok r,
            { s with runs := s.runs ++ [r], nextRunId := s.nextRunId + 1 }) ∧
        r.status = RunStatus.pending ∧ r.started_at = none ∧
        r.completed_at = none) := by
  refine ⟨?_, ?_, ?_⟩
  · intro now input s h
    simp only [startAgentRun, h]
  · intro now input s a h hact
    simp [startAgentRun, h, hact]
  · intro now input s a h hact
    refine ⟨{ id := s.nextRunId, agent_id := input.agent_id,
              input_text := input.input_text, status := RunStatus.pending,
              started_at := none, completed_at := none,
              created_at := now, updated_at := now }, ?_, rfl, rfl, rfl⟩
    simp [startAgentRun, h, hact]

/-- Witness for C6 on `stAgents` (absent id 3, inactive agent 2, active
agent 1). -/
theorem claim_C6_witness :
    startAgentRun 4 { agent_id := 3, input_text := "q" } stAgents =
      (Except.error ("Agent with id " ++ toString 3 ++ " not found"), stAgents) ∧
    startAgentRun 4 { agent_id := 2, input_text := "q" } stAgents =
      (Except.error ("Agent with id " ++ toString 2 ++ " is not active"), stAgents) ∧
    (∃ r, startAgentRun 4 { agent_id := 1, input_text := "q" } stAgents =
        (Except.ok r,
          { stAgents with
            runs := stAgents.runs ++ [r], nextRunId := stAgents.nextRunId + 1 }) ∧
      r.status = RunStatus.pending ∧ r.started_at = none ∧
      r.completed_at = none) :=
  ⟨claim_C6.1 4 _ stAgents rfl,
   claim_C6.2.1 4 _ stAgents agent2 rfl rfl,
   claim_C6.2.2 4 _ stAgents agent1 rfl rfl⟩

/-- Claim C7: `createAgentOutput` never touches the runs (or agents) table in
any case; it fails NotFound for an unknown run id, and otherwise appends
exactly one output whose timestamp is the supplied value or, if omitted, the
current instant. -/
theorem claim_C7 :
    (∀ (now : Int) (input : CreateAgentOutputInput) (s : Store),
      ((createAgentOutput now input s).2).runs = s.runs ∧
      ((createAgentOutput now input s).2).agents = s.agents) ∧
    (∀ (now : Int) (input : CreateAgentOutputInput) (s : Store),
      findRun s input.run_id = none →
      createAgentOutput now input s =
        (Except.error ("Agent run with ID " ++ toString input.run_id ++ " not found"), s)) ∧
    (∀ (now : Int) (input : CreateAgentOutputInput) (s : Store) (r : Run),
      findRun s input.run_id = some r →
      ∃ o, createAgentOutput now input s =
          (Except.ok o,
            { s with outputs := s.outputs ++ [o],
                     nextOutputId := s.nextOutputId + 1 }) ∧
        o.timestamp = input.timestamp.getD now ∧
        o.run_id = input.run_id ∧ o.output_type = input.output_type ∧
        o.content = input.content) := by
  refine ⟨?_, ?_, ?_⟩
  · intro now input s
    cases hfr : findRun s input.run_id <;> simp [createAgentOutput, hfr]
  · intro now input s h
    simp only [createAgentOutput, h]
  · intro now input s r h
    refine ⟨{ id := s.nextOutputId, run_id := input.run_id,
              output_type := input.output_type, content := input.content,
              timestamp := (match input.timestamp with
                            | some t => t
                            | none => now),
              created_at := now }, ?_, ?_, rfl, rfl, rfl⟩
    · simp [createAgentOutput, h]
    · cases input.timestamp <;> rfl

/-- Witness for C7 on `stLive` (run 1 exists, run 99 does not). -/
theorem claim_C7_witness :
    (((createAgentOutput 8 inpLog stLive).2).runs = stLive.runs ∧
      ((createAgentOutput 8 inpLog stLive).2).agents = stLive.agents) ∧
    createAgentOutput 8 inpLogBad stLive =
      (Except.error ("Agent run with ID " ++ toString 99 ++ " not found"), stLive) ∧
    (∃ o, createAgentOutput 8 inpLog stLive =
        (Except.ok o,
          { stLive with
            outputs := stLive.outputs ++ [o],
            nextOutputId := stLive.nextOutputId + 1 }) ∧
      o.timestamp = (none : Option Int).getD 8 ∧
      o.run_id = 1 ∧ o.output_type = OutputType.log ∧ o.content = "m") :=
  ⟨claim_C7.1 8 inpLog stLive,
   claim_C7.2.1 8 inpLogBad stLive rfl,
   claim_C7.2.2 8 inpLog stLive runLive rfl⟩

/-- Claim C10: whenever `startAgentRun` fails — agent absent or inactive —
the store is left unchanged: no run record is inserted, because both
precondition checks happen before the insert. -/
theorem claim_C10 (now : Int) (input : StartAgentRunInput) (s : Store)
    (msg : String)
    (hfail : (startAgentRun now input s).1 = Except.error msg) :
    (startAgentRun now input s).2 = s := by
  cases hfa : findAgent s input.agent_id with
  | none => simp [startAgentRun, hfa]
  | some a =>
    by_cases hact : a.is_active = false
    · simp [startAgentRun, hfa, hact]
    · simp [startAgentRun, hfa, hact] at hfail

/-- Witness for C10: the failing call on the absent agent id 3 leaves
`stAgents` unchanged. -/
theorem claim_C10_witness :
    (startAgentRun 4 { agent_id := 3, input_text := "q" } stAgents).2 = stAgents :=
  claim_C10 4 _ stAgents ("Agent with id " ++ toString 3 ++ " not found") rfl

end Crew
